import Mathlib

/-!
Verification of the local-llm-chat editor extension against its
natural-language specification.

The embedding below translates the relevant source functions into Lean:

* `trimMessageHistory` — the history-trimming policy (utils, lines 165-181),
  including the exact semantics of JavaScript `Array.prototype.slice` with a
  possibly negative start index (`jsSliceFrom`).
* `extractAllFileFences` — the fenced-block suggestion extractor
  (ChatPanel, lines 375-388), realised as a scanner equivalent to the regex
  `/```file\s+path="([^"]+)"[\r\n]+([\s\S]*?)```/g` run in an `exec` loop.
* `onUserMessage` — the conversation-handling boundary (ChatPanel,
  lines 146-193), with the model call's outcome passed in explicitly and the
  slash-command branch (which performs workspace IO) passed in as a delegate.
* `callOpenAIEndpoint` / `callOllamaEndpoint` — the response-normalisation
  and error taxonomy of the endpoint adapter (out/llm.js), with the HTTP
  transport modelled as an explicit outcome value.
* `validateRelativePath` — the path-validation gate (utils, lines 44-78),
  on the posix path convention (`path.sep = "/"`, `process.platform ≠ "win32"`),
  together with a faithful model of Node's `path.posix.normalize`.
-/

namespace LocalLLMChat

/-- A chat message: `{ role, content }` from `types.ts`. -/
structure ChatMessage where
  role : String
  content : String
deriving DecidableEq, Repr

/-- A file suggestion `{ path, content }` produced by the suggestion extractor. -/
structure FileSuggestion where
  path : String
  content : String
deriving DecidableEq, Repr

/-- JavaScript `arr.slice(k)` for a possibly negative `k`:
a negative start counts from the end (clamped at 0), a non-negative start
drops that many leading elements. -/
def jsSliceFrom (l : List α) (k : Int) : List α :=
  let start : Nat := if k < 0 then ((l.length : Int) + k).toNat else k.toNat
  l.drop start

/-- `trimMessageHistory` (utils, lines 165-181): if the list already fits,
return it unchanged; otherwise gather every system-role message, every other
message, and append `otherMessages.slice(-maxMessages + systemMessages.length)`
to the system messages. -/
def trimMessageHistory (messages : List ChatMessage) (maxMessages : Nat) :
    List ChatMessage :=
  if messages.length ≤ maxMessages then messages
  else
    let systemMessages := messages.filter (fun m => m.role == "system")
    let otherMessages := messages.filter (fun m => m.role != "system")
    let recentMessages :=
      jsSliceFrom otherMessages ((systemMessages.length : Int) - (maxMessages : Int))
    systemMessages ++ recentMessages

/-- The trimming contract as the spec words it (§4.2): leave a short list
unchanged, otherwise keep the system messages followed by exactly the most
recent `maxMessages - systemCount` non-system messages in original order.
This definition follows the spec's words and is compared against
`trimMessageHistory`, which follows the source. -/
def trimSpec (messages : List ChatMessage) (maxMessages : Nat) :
    List ChatMessage :=
  if messages.length ≤ maxMessages then messages
  else
    let systemMessages := messages.filter (fun m => m.role == "system")
    let otherMessages := messages.filter (fun m => m.role != "system")
    let keep := maxMessages - systemMessages.length
    systemMessages ++ otherMessages.drop (otherMessages.length - keep)

/-! ### Suggestion extraction

The source scans assistant output with the regular expression
`/```file\s+path="([^"]+)"[\r\n]+([\s\S]*?)```/g` in an `exec` loop.  The
scanner below reproduces its matching semantics: at each candidate start
position it requires the literal opener, a maximal non-empty whitespace run,
the literal `path="`, a non-empty run of non-quote characters (the path
capture), the closing quote, a maximal non-empty run of CR/LF characters,
and then the shortest content ending at the next closing triple-backtick.
Matches are found leftmost-first and are non-overlapping (scanning resumes
after the end of each match), exactly as `exec` with the `g` flag does. -/

/-- The characters matched by the regex class `\s` (ASCII range; the inputs
considered in this development contain only spaces, tabs and line breaks). -/
def isSpaceChar (c : Char) : Bool :=
  c == ' ' || c == '\t' || c == '\n' || c == '\r' ||
  c == '\x0b' || c == '\x0c'

/-- The characters matched by the regex class `[\r\n]`. -/
def isNewlineChar (c : Char) : Bool :=
  c == '\r' || c == '\n'

/-- JavaScript `String.prototype.trim`: strip leading and trailing whitespace
and line terminators (ASCII range, matching `isSpaceChar`). -/
def jsTrim (s : String) : String :=
  String.mk (((s.data.dropWhile isSpaceChar).reverse.dropWhile
    isSpaceChar).reverse)

/-- JavaScript `String.prototype.startsWith`. -/
def jsStartsWith (s pre : String) : Bool :=
  pre.data.isPrefixOf s.data

/-- JavaScript `String.prototype.endsWith`. -/
def jsEndsWith (s suf : String) : Bool :=
  suf.data.isSuffixOf s.data

/-- Drop a literal prefix from a character list, failing when it is absent. -/
def dropLit (pat l : List Char) : Option (List Char) :=
  if pat.isPrefixOf l then some (l.drop pat.length) else none

/-- Split a character list at the first occurrence of the substring `pat`:
returns the characters before the occurrence and the characters after it. -/
def splitAtSub (pat : List Char) : List Char → Option (List Char × List Char)
  | [] => if pat = [] then some ([], []) else none
  | c :: rest =>
    if pat.isPrefixOf (c :: rest) then some ([], (c :: rest).drop pat.length)
    else (splitAtSub pat rest).map (fun pr => (c :: pr.1, pr.2))

/-- Attempt to match one fence block starting exactly at the head of `l`.
On success returns the path capture, the content capture, and the remainder
of the text after the closing triple-backtick. -/
def matchFenceAt (l : List Char) : Option (List Char × List Char × List Char) :=
  match dropLit "```file".data l with
  | none => none
  | some l1 =>
    if (l1.takeWhile isSpaceChar).length = 0 then none
    else
      match dropLit "path=\"".data (l1.dropWhile isSpaceChar) with
      | none => none
      | some l2 =>
        let path := l2.takeWhile (fun c => c != '"')
        if path.length = 0 then none
        else
          match l2.dropWhile (fun c => c != '"') with
          | '"' :: l3 =>
            if (l3.takeWhile isNewlineChar).length = 0 then none
            else
              match splitAtSub "```".data (l3.dropWhile isNewlineChar) with
              | none => none
              | some (content, rest) => some (path, content, rest)
          | _ => none

/-- The `exec` loop: find every non-overlapping match, leftmost first.
The fuel argument (initialised with the text length) only serves Lean's
termination checker; every successful match consumes at least the opener, so
the remainder is always strictly shorter and the fuel never runs out. -/
def scanFencesAux : Nat → List Char → List (List Char × List Char)
  | 0, _ => []
  | _ + 1, [] => []
  | fuel + 1, c :: rest =>
    match matchFenceAt (c :: rest) with
    | some (path, content, remainder) =>
        (path, content) :: scanFencesAux fuel remainder
    | none => scanFencesAux fuel rest

/-- All fence matches of a character list, leftmost first. -/
def scanFences (l : List Char) : List (List Char × List Char) :=
  scanFencesAux l.length l

/-- `ChatPanel.extractAllFileFences` (lines 375-388): run the fence regex over
the text and, for each match with a truthy path capture (the capture is
`[^"]+`, hence never the empty string), record the trimmed path and the
verbatim content. -/
def extractAllFileFences (text : String) : List FileSuggestion :=
  ((scanFences text.data).filter (fun pr => !pr.1.isEmpty)).map
    (fun pr => { path := jsTrim (String.mk pr.1), content := String.mk pr.2 })

/-! ### The conversation-handling boundary -/

/-- An outbound event posted to the webview display channel
(`this.post({type: ...})` in `ChatPanel`). -/
inductive Post where
  /-- `{type: 'chat:append', role, content}` -/
  | append (role content : String)
  /-- `{type: 'chat:error', message}` — the distinct error message kind. -/
  | error (message : String)
  /-- `{type: 'file:suggest', file}` -/
  | fileSuggest (file : FileSuggestion)
deriving DecidableEq, Repr

/-- `ChatPanel.onUserMessage` (lines 146-193), as a function from the prior
conversation to the new conversation plus the posts sent to the display
channel.  The outcome of the single `callLLM` invocation is passed in as an
`Except` value (`.error e` models a thrown error whose message is `e`); the
slash-command branch delegates to `handleCommand`, which only performs
workspace IO, and is passed in as the `commandResult` delegate. -/
def onUserMessage (msgs : List ChatMessage) (text : String)
    (maxHistoryMessages : Nat) (llmResult : Except String String)
    (commandResult : List ChatMessage × List Post) :
    List ChatMessage × List Post :=
  let trimmedText := jsTrim text
  if trimmedText = "" then (msgs, [])
  else if jsStartsWith trimmedText "/" then commandResult
  else
    let afterPush := msgs ++ [{ role := "user", content := trimmedText }]
    let afterTrim := trimMessageHistory afterPush maxHistoryMessages
    match llmResult with
    | .ok reply =>
        (afterTrim ++ [{ role := "assistant", content := reply }],
         Post.append "assistant" reply ::
           (extractAllFileFences reply).map Post.fileSuggest)
    | .error e => (afterTrim, [Post.error e])

/-! ### Endpoint adapter (out/llm.js)

The HTTP transport is modelled as an explicit outcome: the `fetch` either
aborts on the timeout timer, returns a non-ok status, or returns a parsed
JSON body.  Optional JSON fields are `Option`s; JavaScript falsiness of a
string field (`undefined`, `null` or `""`) corresponds to `none` or
`some ""`. -/

/-- `{message: {content}}` — sub-object of both wire shapes. -/
structure WireMessage where
  content : Option String
deriving DecidableEq, Repr

/-- One entry of the openai-compatible `choices` list. -/
structure WireChoice where
  message : Option WireMessage
deriving DecidableEq, Repr

/-- Body of an openai-compatible success response. -/
structure OpenAIResponse where
  choices : Option (List WireChoice)
deriving DecidableEq, Repr

/-- Body of a native-alt (Ollama `/api/chat`) success response. -/
structure OllamaResponse where
  message : Option WireMessage
deriving DecidableEq, Repr

/-- The outcome of the single `fetch` performed by an endpoint call. -/
inductive FetchOutcome (α : Type) where
  /-- The abort signal fired before a response arrived (`AbortError`). -/
  | timeout
  /-- A non-ok HTTP status with the response body text and status text. -/
  | httpError (status : Nat) (body statusText : String)
  /-- An ok status whose body parsed to `json`. -/
  | success (json : α)
deriving DecidableEq, Repr

/-- The errors thrown by the endpoint adapter, as structured values.  Each
constructor carries the data interpolated into the corresponding JavaScript
`Error` message. -/
inductive LLMError where
  /-- `'No response choices returned from LLM'` -/
  | noChoices
  /-- `'Empty response from LLM'` -/
  | emptyResponse
  /-- `'Empty response from Ollama'` -/
  | emptyOllama
  /-- ``LLM API error (${status}): ${errorText || statusText}`` (or the
  `Ollama API error` variant). -/
  | apiError (status : Nat) (text : String)
  /-- ``Request timed out after ${timeout / 1000} seconds`` — carries the
  exact value `timeout / 1000` displayed in the message. -/
  | timedOutAfterSeconds (seconds : ℚ)
deriving DecidableEq, Repr

/-- The empty-response error kind of the spec's taxonomy (§7,
`EmptyResponseError`): a success status carrying no usable content. -/
def LLMError.isEmptyResponseError : LLMError → Bool
  | .noChoices => true
  | .emptyResponse => true
  | .emptyOllama => true
  | _ => false

/-- `callOpenAIEndpoint` (out/llm.js, lines 157-195) from the fetch outcome
onward: non-ok statuses raise an API error preferring the body text, a
missing or empty `choices` list raises `noChoices`, a missing or empty first
choice content raises `emptyResponse`, and otherwise the trimmed content is
returned.  A timer abort raises the timeout error carrying
`timeoutMs / 1000` (exact division). -/
def callOpenAIEndpoint (timeoutMs : ℚ) (outcome : FetchOutcome OpenAIResponse) :
    Except LLMError String :=
  match outcome with
  | .timeout => .error (.timedOutAfterSeconds (timeoutMs / 1000))
  | .httpError status body statusText =>
      .error (.apiError status (if body != "" then body else statusText))
  | .success json =>
      match json.choices with
      | none => .error .noChoices
      | some cs =>
        if cs.length = 0 then .error .noChoices
        else
          match (cs.head?.bind (·.message)).bind (·.content) with
          | none => .error .emptyResponse
          | some c => if c = "" then .error .emptyResponse else .ok (jsTrim c)

/-- `callOllamaEndpoint` (out/llm.js, lines 200-236) from the fetch outcome
onward: non-ok statuses raise an API error, a missing `message` or missing
or empty `message.content` raises `emptyOllama`, otherwise the trimmed
content is returned.  The timeout branch is identical to the
openai-compatible one. -/
def callOllamaEndpoint (timeoutMs : ℚ) (outcome : FetchOutcome OllamaResponse) :
    Except LLMError String :=
  match outcome with
  | .timeout => .error (.timedOutAfterSeconds (timeoutMs / 1000))
  | .httpError status body statusText =>
      .error (.apiError status (if body != "" then body else statusText))
  | .success json =>
      match json.message with
      | none => .error .emptyOllama
      | some m =>
        match m.content with
        | none => .error .emptyOllama
        | some c => if c = "" then .error .emptyOllama else .ok (jsTrim c)

/-- The claim's notion of the usable content of an openai-compatible success
body: the first choice's message content, provided the choices list and the
content are present and the content is non-empty. -/
def usableOpenAIContent (json : OpenAIResponse) : Option String :=
  match json.choices with
  | none => none
  | some cs =>
    if cs.length = 0 then none
    else
      match (cs.head?.bind (·.message)).bind (·.content) with
      | none => none
      | some c => if c = "" then none else some c

/-! ### Path validation (utils, lines 44-78)

Modelled on the posix path convention: `path.sep = "/"`,
`path.isAbsolute p` tests a leading `/`, `process.platform ≠ 'win32'` so the
Windows forbidden-character branch is not taken, and `path.normalize` is
Node's `path.posix.normalize`. -/

/-- Segment resolution of Node's `normalizeString`: `.` and empty segments
are gone already; `..` pops a previous real segment, is dropped at the root
of an absolute path, and is kept (`allowAboveRoot`) for a relative path. -/
def normSegs (isAbs : Bool) : List String → List String → List String
  | stack, [] => stack.reverse
  | stack, seg :: rest =>
    if seg = ".." then
      match stack with
      | [] => if isAbs then normSegs isAbs [] rest
              else normSegs isAbs [".."] rest
      | top :: stack' =>
          if top = ".." then normSegs isAbs (seg :: top :: stack') rest
          else normSegs isAbs stack' rest
    else normSegs isAbs (seg :: stack) rest

/-- `String.prototype.split` with a single-character separator. -/
def splitOnSep (sep : Char) : List Char → List (List Char)
  | [] => [[]]
  | c :: rest =>
    match splitOnSep sep rest with
    | [] => [[c]]
    | h :: t => if c = sep then [] :: h :: t else (c :: h) :: t

/-- Node's `path.posix.normalize`: resolve `.`/`..` segments, collapse
repeated separators, preserve a trailing separator, return `.` (or `/`) for
an empty result. -/
def posixNormalize (p : String) : String :=
  if p = "" then "."
  else
    let isAbs := jsStartsWith p "/"
    let trailing := jsEndsWith p "/"
    let segs := ((splitOnSep '/' p.data).map String.mk).filter
      (fun s => s != "" && s != ".")
    let joined := String.mk
      (List.intercalate "/".data ((normSegs isAbs [] segs).map String.data))
    if joined = "" then
      if isAbs then "/" else if trailing then "./" else "."
    else
      let withTrail := if trailing then joined ++ "/" else joined
      if isAbs then "/" ++ withTrail else withTrail

/-- Substring containment, used for the `normalized.includes('..')` check. -/
def strContainsSub (s sub : String) : Bool :=
  (splitAtSub sub.data s.data).isSome

/-- `validateRelativePath` (utils, lines 44-78) on the posix convention.
Throwing is modelled as returning `.error` with the thrown message; the
checks run in source order (the win32 character branch is skipped on
posix). -/
def validateRelativePath (relPath : String) : Except String Unit :=
  if relPath = "" || jsTrim relPath = "" then .error "Path cannot be empty"
  else
    let normalized := posixNormalize relPath
    if jsStartsWith normalized "/" then .error "Absolute paths are not allowed"
    else if strContainsSub normalized ".." then
      .error "Path traversal (..) is not allowed"
    else if jsStartsWith normalized "/" then
      .error "Path cannot start with a separator"
    else if relPath.data.contains '\x00' then .error "Path contains null bytes"
    else .ok ()

/-- `Except` success test (JavaScript: the call returned instead of
throwing). -/
def exceptOk : Except ε α → Bool
  | .ok _ => true
  | .error _ => false

/-! ### Helper lemmas about the trimming policy -/

lemma length_filter_sys_add (msgs : List ChatMessage) :
    (msgs.filter (fun m => m.role == "system")).length
      + (msgs.filter (fun m => m.role != "system")).length = msgs.length := by
  have h := List.length_eq_length_filter_add
    (l := msgs) (fun m => m.role == "system")
  have e : (fun m : ChatMessage => !(m.role == "system"))
      = (fun m => m.role != "system") := rfl
  rw [e] at h
  omega

lemma jsSliceFrom_neg_eq_drop (l : List α) (s n : Nat) (hs : s < n)
    (hlen : n - s ≤ l.length) :
    jsSliceFrom l ((s : Int) - (n : Int)) = l.drop (l.length - (n - s)) := by
  have hk : ((s : Int) - (n : Int)) < 0 := by omega
  simp only [jsSliceFrom, if_pos hk]
  congr 1
  omega

lemma jsSliceFrom_zero (l : List α) : jsSliceFrom l 0 = l := by
  simp [jsSliceFrom]

lemma mem_of_mem_jsSliceFrom {a : α} {l : List α} {k : Int}
    (h : a ∈ jsSliceFrom l k) : a ∈ l := by
  unfold jsSliceFrom at h
  exact List.mem_of_mem_drop h

lemma trim_eq_of_le {msgs : List ChatMessage} {n : Nat}
    (h : msgs.length ≤ n) : trimMessageHistory msgs n = msgs := by
  simp [trimMessageHistory, h]

lemma trim_eq_append {msgs : List ChatMessage} {n : Nat}
    (h : ¬ msgs.length ≤ n) :
    trimMessageHistory msgs n
      = msgs.filter (fun m => m.role == "system")
        ++ jsSliceFrom (msgs.filter (fun m => m.role != "system"))
             (((msgs.filter (fun m => m.role == "system")).length : Int)
               - (n : Int)) := by
  simp [trimMessageHistory, h]

lemma sys_of_mem_filter_sys {m : ChatMessage} {msgs : List ChatMessage}
    (h : m ∈ msgs.filter (fun m => m.role == "system")) :
    (m.role == "system") = true :=
  (List.mem_filter.mp h).2

lemma not_sys_of_mem_filter_oth {m : ChatMessage} {msgs : List ChatMessage}
    (h : m ∈ msgs.filter (fun m => m.role != "system")) :
    (m.role == "system") = false := by
  have hb := (List.mem_filter.mp h).2
  simpa [bne] using hb

lemma filter_sys_self (msgs : List ChatMessage) :
    (msgs.filter (fun m => m.role == "system")).filter
        (fun m => m.role == "system")
      = msgs.filter (fun m => m.role == "system") :=
  List.filter_eq_self.mpr (fun _ ha => sys_of_mem_filter_sys ha)

lemma filter_oth_of_sys (msgs : List ChatMessage) :
    (msgs.filter (fun m => m.role == "system")).filter
        (fun m => m.role != "system") = [] :=
  List.filter_eq_nil_iff.mpr (fun a ha => by
    simp [bne, sys_of_mem_filter_sys ha])

lemma filter_sys_of_oth (msgs : List ChatMessage) :
    (msgs.filter (fun m => m.role != "system")).filter
        (fun m => m.role == "system") = [] :=
  List.filter_eq_nil_iff.mpr (fun a ha => by
    simp [not_sys_of_mem_filter_oth ha])

lemma filter_oth_self (msgs : List ChatMessage) :
    (msgs.filter (fun m => m.role != "system")).filter
        (fun m => m.role != "system")
      = msgs.filter (fun m => m.role != "system") :=
  List.filter_eq_self.mpr (fun _ ha => (List.mem_filter.mp ha).2)

lemma getLast?_drop_of_lt {l : List α} {i : Nat} (h : i < l.length) :
    (l.drop i).getLast? = l.getLast? := by
  induction l generalizing i with
  | nil => simp at h
  | cons a t ih =>
    cases i with
    | zero => rfl
    | succ j =>
      rw [List.drop_succ_cons]
      have hj : j < t.length := by simpa using h
      rw [ih hj]
      cases t with
      | nil => simp at hj
      | cons b t' => rw [List.getLast?_cons_cons]

/-! ### Claim C1 — the trimming contract -/

/-- A conversation for which the spec's description of trimming disagrees
with the source: two system messages and a bound of two. -/
def c1Msgs : List ChatMessage :=
  [⟨"system", "a"⟩, ⟨"system", "b"⟩, ⟨"user", "c"⟩]

/-- C1 (counterexample): with two system messages and `maxMessages = 2`, the
claim says the trimmed result keeps the most recent `2 - 2 = 0` non-system
messages, i.e. `[system a, system b]`; the source's
`slice(-maxMessages + systemCount) = slice(0)` instead keeps every
non-system message, returning the whole three-element list. -/
theorem trim_spec_counterexample :
    trimMessageHistory c1Msgs 2 = c1Msgs ∧
    trimSpec c1Msgs 2 = [⟨"system", "a"⟩, ⟨"system", "b"⟩] ∧
    trimMessageHistory c1Msgs 2 ≠ trimSpec c1Msgs 2 := by
  decide

/-- C1 (amended): a list that fits within the bound is returned unchanged,
and whenever the list exceeds the bound and the number of system-role
messages is strictly below the bound, the result is the system messages in
original order followed by exactly the most recent
`maxMessages - systemCount` non-system messages in original order (the
`trimSpec` reading of the claim).  The amendment excludes the case
`systemCount ≥ maxMessages`, where the counterexample shows the source keeps
non-system messages the claim would discard. -/
theorem trim_spec_correspondence (msgs : List ChatMessage) (n : Nat) :
    (msgs.length ≤ n → trimMessageHistory msgs n = msgs) ∧
    ((msgs.filter (fun m => m.role == "system")).length < n →
      trimMessageHistory msgs n = trimSpec msgs n) := by
  constructor
  · intro h
    exact trim_eq_of_le h
  · intro hs
    by_cases h : msgs.length ≤ n
    · simp [trimMessageHistory, trimSpec, h]
    · have hpart := length_filter_sys_add msgs
      have hlen : n - (msgs.filter (fun m => m.role == "system")).length
          ≤ (msgs.filter (fun m => m.role != "system")).length := by omega
      rw [trim_eq_append h, jsSliceFrom_neg_eq_drop _ _ _ hs hlen]
      simp [trimSpec, h]

/-- C1 (witness): the amended theorem applied to concrete inputs: a
two-element list with bound 5 is unchanged, and a three-element list with
one system message and bound 2 matches the spec's description. -/
theorem trim_spec_correspondence_witness :
    trimMessageHistory [⟨"user", "x"⟩, ⟨"user", "y"⟩] 5
        = [⟨"user", "x"⟩, ⟨"user", "y"⟩] ∧
    (([⟨"system", "s"⟩, ⟨"user", "u1"⟩, ⟨"user", "u2"⟩] :
        List ChatMessage).filter (fun m => m.role == "system")).length < 2 ∧
    trimMessageHistory [⟨"system", "s"⟩, ⟨"user", "u1"⟩, ⟨"user", "u2"⟩] 2
        = trimSpec [⟨"system", "s"⟩, ⟨"user", "u1"⟩, ⟨"user", "u2"⟩] 2 :=
  ⟨(trim_spec_correspondence _ 5).1 (by decide), by decide,
   (trim_spec_correspondence _ 2).2 (by decide)⟩

/-! ### Claim C2 — idempotence of trimming -/

/-- A conversation on which trimming is not idempotent: two system messages
and bound 1. -/
def c2Msgs : List ChatMessage :=
  [⟨"system", "s1"⟩, ⟨"system", "s2"⟩, ⟨"user", "u1"⟩, ⟨"user", "u2"⟩]

/-- C2 (counterexample): with two system messages and bound `n = 1 ≥ 1`,
the first trim keeps `[s1, s2, u2]` (`slice(1)` drops the oldest non-system
message) and the second trim then drops `u2` as well, so
`trim (trim c 1) 1 ≠ trim c 1`. -/
theorem trim_not_idempotent_counterexample :
    (1 : Nat) ≥ 1 ∧
    trimMessageHistory c2Msgs 1 = [⟨"system", "s1"⟩, ⟨"system", "s2"⟩, ⟨"user", "u2"⟩] ∧
    trimMessageHistory (trimMessageHistory c2Msgs 1) 1
      ≠ trimMessageHistory c2Msgs 1 := by
  decide

/-- C2 (amended): trimming is idempotent for every conversation whose number
of system-role messages is at most the bound (in particular for every
conversation with at most one system message, the shape the extension
itself builds); the counterexample shows idempotence fails when the system
messages alone exceed the bound. -/
theorem trim_idempotent_of_bounded_system (msgs : List ChatMessage) (n : Nat)
    (hn : 1 ≤ n)
    (hs : (msgs.filter (fun m => m.role == "system")).length ≤ n) :
    trimMessageHistory (trimMessageHistory msgs n) n
      = trimMessageHistory msgs n := by
  by_cases h : msgs.length ≤ n
  · rw [trim_eq_of_le h, trim_eq_of_le h]
  · have hpart := length_filter_sys_add msgs
    rcases Nat.lt_or_ge (msgs.filter (fun m => m.role == "system")).length n
      with hlt | hge
    · have hlen : n - (msgs.filter (fun m => m.role == "system")).length
          ≤ (msgs.filter (fun m => m.role != "system")).length := by omega
      rw [trim_eq_append h, jsSliceFrom_neg_eq_drop _ _ _ hlt hlen]
      apply trim_eq_of_le
      rw [List.length_append, List.length_drop]
      omega
    · have heq : (msgs.filter (fun m => m.role == "system")).length = n :=
        le_antisymm hs hge
      have hzero : (((msgs.filter (fun m => m.role == "system")).length : Int)
          - (n : Int)) = 0 := by omega
      rw [trim_eq_append h, hzero, jsSliceFrom_zero]
      have hlen2 : ¬ ((msgs.filter (fun m => m.role == "system")
          ++ msgs.filter (fun m => m.role != "system")).length ≤ n) := by
        rw [List.length_append]
        omega
      rw [trim_eq_append hlen2]
      rw [List.filter_append, List.filter_append, filter_sys_self,
        filter_sys_of_oth, filter_oth_of_sys, filter_oth_self,
        List.append_nil, List.nil_append, hzero, jsSliceFrom_zero]

/-- C2 (witness): idempotence at a concrete conversation with one system
message and bound 2. -/
theorem trim_idempotent_of_bounded_system_witness :
    (1 : Nat) ≤ 2 ∧
    (([⟨"system", "s"⟩, ⟨"user", "a"⟩, ⟨"user", "b"⟩, ⟨"user", "c"⟩] :
        List ChatMessage).filter (fun m => m.role == "system")).length ≤ 2 ∧
    trimMessageHistory
        (trimMessageHistory
          [⟨"system", "s"⟩, ⟨"user", "a"⟩, ⟨"user", "b"⟩, ⟨"user", "c"⟩] 2) 2
      = trimMessageHistory
          [⟨"system", "s"⟩, ⟨"user", "a"⟩, ⟨"user", "b"⟩, ⟨"user", "c"⟩] 2 :=
  ⟨by decide, by decide,
   trim_idempotent_of_bounded_system _ 2 (by decide) (by decide)⟩

/-! ### Claim C3 — a leading system message is never evicted -/

/-- C3: for every conversation whose first message has role `system` and
every bound `n ≥ 1`, the trimmed conversation starts with that same first
message, unchanged. -/
theorem trim_preserves_leading_system (m0 : ChatMessage)
    (rest : List ChatMessage) (n : Nat) (hrole : m0.role = "system")
    (hn : 1 ≤ n) :
    (trimMessageHistory (m0 :: rest) n).head? = some m0 := by
  by_cases h : (m0 :: rest).length ≤ n
  · rw [trim_eq_of_le h]
    rfl
  · rw [trim_eq_append h]
    rw [List.filter_cons_of_pos (by simp [hrole])]
    rfl

/-- C3 (witness): a five-message conversation led by a system message,
trimmed to 2, still starts with that system message. -/
theorem trim_preserves_leading_system_witness :
    (⟨"system", "S"⟩ : ChatMessage).role = "system" ∧ (1 : Nat) ≤ 2 ∧
    (trimMessageHistory
        (⟨"system", "S"⟩ ::
          [⟨"user", "a"⟩, ⟨"assistant", "b"⟩, ⟨"user", "c"⟩, ⟨"assistant", "d"⟩])
        2).head? = some ⟨"system", "S"⟩ :=
  ⟨rfl, by decide,
   trim_preserves_leading_system _ _ 2 rfl (by decide)⟩

/-! ### Claim C10 — trimming gathers every system message to the front -/

/-- A conversation with a system message in third position, after two
non-system messages. -/
def c10Msgs : List ChatMessage :=
  [⟨"user", "a"⟩, ⟨"user", "b"⟩, ⟨"system", "s"⟩, ⟨"user", "c"⟩]

/-- C10: when the conversation exceeds the bound, the trimmed result starts
with the block of all system-role messages of the input (wherever they
occurred), everything after that block is non-system, the retained tail is
sized using the count of all system messages (the result has exactly `n`
entries when that count is below the bound), and concretely a system message
that appeared after non-system messages is reordered ahead of retained
non-system messages that originally preceded it. -/
theorem trim_gathers_all_system_messages (msgs : List ChatMessage) (n : Nat)
    (h : n < msgs.length) :
    (trimMessageHistory msgs n).take
        (msgs.filter (fun m => m.role == "system")).length
      = msgs.filter (fun m => m.role == "system") ∧
    (∀ m ∈ (trimMessageHistory msgs n).drop
        (msgs.filter (fun m => m.role == "system")).length,
      (m.role == "system") = false) ∧
    ((msgs.filter (fun m => m.role == "system")).length < n →
      (trimMessageHistory msgs n).length = n) ∧
    trimMessageHistory c10Msgs 3
      = [⟨"system", "s"⟩, ⟨"user", "b"⟩, ⟨"user", "c"⟩] := by
  have h' : ¬ msgs.length ≤ n := by omega
  have hpart := length_filter_sys_add msgs
  refine ⟨?_, ?_, ?_, by decide⟩
  · rw [trim_eq_append h']
    exact List.take_left _ _
  · rw [trim_eq_append h', List.drop_left]
    intro m hm
    exact not_sys_of_mem_filter_oth (mem_of_mem_jsSliceFrom hm)
  · intro hlt
    have hlen : n - (msgs.filter (fun m => m.role == "system")).length
        ≤ (msgs.filter (fun m => m.role != "system")).length := by omega
    rw [trim_eq_append h', jsSliceFrom_neg_eq_drop _ _ _ hlt hlen,
      List.length_append, List.length_drop]
    omega

/-- C10 (witness): the theorem applied to the concrete conversation
`c10Msgs` with bound 3. -/
theorem trim_gathers_all_system_messages_witness :
    (3 : Nat) < c10Msgs.length ∧
    (c10Msgs.filter (fun m => m.role == "system")).length < 3 ∧
    (trimMessageHistory c10Msgs 3).take
        (c10Msgs.filter (fun m => m.role == "system")).length
      = c10Msgs.filter (fun m => m.role == "system") ∧
    (trimMessageHistory c10Msgs 3).length = 3 :=
  ⟨by decide, by decide,
   (trim_gathers_all_system_messages c10Msgs 3 (by decide)).1,
   (trim_gathers_all_system_messages c10Msgs 3 (by decide)).2.2.1 (by decide)⟩

/-! ### Claim C4 — error handling at the conversation boundary -/

lemma jsSliceFrom_getLast?_of_nonpos {l : List α} {k : Int} (hk : k ≤ 0)
    (hl : l ≠ []) :
    (jsSliceFrom l k).getLast? = l.getLast? ∧ jsSliceFrom l k ≠ [] := by
  have hlen : 0 < l.length := List.length_pos.mpr hl
  have hstart : (if k < 0 then ((l.length : Int) + k).toNat else k.toNat)
      < l.length := by
    split <;> omega
  unfold jsSliceFrom
  refine ⟨getLast?_drop_of_lt hstart, ?_⟩
  rw [Ne, List.drop_eq_nil_iff]
  omega

lemma trim_getLast_of_append_user (l : List ChatMessage) (u : ChatMessage)
    (n : Nat) (hu : (u.role == "system") = false)
    (hs : (l.filter (fun m => m.role == "system")).length ≤ n) :
    (trimMessageHistory (l ++ [u]) n).getLast? = some u := by
  by_cases h : (l ++ [u]).length ≤ n
  · rw [trim_eq_of_le h]
    exact List.getLast?_concat l
  · rw [trim_eq_append h]
    have hfO : (l ++ [u]).filter (fun m => m.role != "system")
        = l.filter (fun m => m.role != "system") ++ [u] := by
      rw [List.filter_append]
      congr 1
      simp [bne, hu]
    have hfS : (l ++ [u]).filter (fun m => m.role == "system")
        = l.filter (fun m => m.role == "system") := by
      rw [List.filter_append]
      simp [hu]
    rw [hfS, hfO]
    have hkle : ((l.filter (fun m => m.role == "system")).length : Int)
        - (n : Int) ≤ 0 := by omega
    have hne : l.filter (fun m => m.role != "system") ++ [u] ≠ [] := by simp
    obtain ⟨hlast, hnonnil⟩ := jsSliceFrom_getLast?_of_nonpos hkle hne
    rw [List.getLast?_append_of_ne_nil _ hnonnil, hlast]
    exact List.getLast?_concat _

/-- C4 (counterexample): prior history `[system a, system b]`, bound 1, user
text `"hi"`, any model-call error.  The boundary pushes the user turn and
then trims before the call; the trim evicts the user turn
(`slice(2 - 1) = slice(1)` of the single non-system message is empty), so
after the error the history is `[system a, system b]`: it is not the prior
history with the user's turn recorded, and its last entry is not the user's
turn. -/
theorem onUserMessage_error_counterexample :
    (onUserMessage [⟨"system", "a"⟩, ⟨"system", "b"⟩] "hi" 1
        (.error "boom") ([], [])).1
      = [⟨"system", "a"⟩, ⟨"system", "b"⟩] ∧
    (onUserMessage [⟨"system", "a"⟩, ⟨"system", "b"⟩] "hi" 1
        (.error "boom") ([], [])).1
      ≠ [⟨"system", "a"⟩, ⟨"system", "b"⟩, ⟨"user", "hi"⟩] ∧
    (onUserMessage [⟨"system", "a"⟩, ⟨"system", "b"⟩] "hi" 1
        (.error "boom") ([], [])).1.getLast?
      ≠ some ⟨"user", "hi"⟩ := by
  decide

/-- C4 (amended): when the model call raises any error, the boundary posts
exactly one display event, of the distinct error kind, carrying the error
message; the conversation history is exactly what it was at the moment of
the failed call, namely the trim of (prior history plus the user's turn);
and the user's turn is the last entry provided the prior history carries at
most `maxHistoryMessages` system-role messages (the counterexample shows it
is otherwise evicted by the pre-call trim). -/
theorem onUserMessage_error_boundary (msgs : List ChatMessage) (text : String)
    (n : Nat) (e : String) (commandResult : List ChatMessage × List Post)
    (hne : jsTrim text ≠ "") (hcmd : jsStartsWith (jsTrim text) "/" = false) :
    (onUserMessage msgs text n (.error e) commandResult).1
      = trimMessageHistory (msgs ++ [⟨"user", jsTrim text⟩]) n ∧
    (onUserMessage msgs text n (.error e) commandResult).2 = [Post.error e] ∧
    ((msgs.filter (fun m => m.role == "system")).length ≤ n →
      (onUserMessage msgs text n (.error e) commandResult).1.getLast?
        = some ⟨"user", jsTrim text⟩) := by
  refine ⟨?_, ?_, ?_⟩
  · simp [onUserMessage, hne, hcmd]
  · simp [onUserMessage, hne, hcmd]
  · intro hs
    have hout : (onUserMessage msgs text n (.error e) commandResult).1
        = trimMessageHistory (msgs ++ [⟨"user", jsTrim text⟩]) n := by
      simp [onUserMessage, hne, hcmd]
    rw [hout]
    exact trim_getLast_of_append_user msgs ⟨"user", jsTrim text⟩ n rfl hs

/-- C4 (witness): prior history `[system S]`, bound 50, user text `"hi"`,
model call failing with a connection error. -/
theorem onUserMessage_error_boundary_witness :
    (jsTrim "hi" ≠ "") ∧ (jsStartsWith (jsTrim "hi") "/" = false) ∧
    (onUserMessage [⟨"system", "S"⟩] "hi" 50 (.error "ECONNREFUSED")
        ([], [])).1
      = trimMessageHistory [⟨"system", "S"⟩, ⟨"user", "hi"⟩] 50 ∧
    (onUserMessage [⟨"system", "S"⟩] "hi" 50 (.error "ECONNREFUSED")
        ([], [])).2 = [Post.error "ECONNREFUSED"] ∧
    (onUserMessage [⟨"system", "S"⟩] "hi" 50 (.error "ECONNREFUSED")
        ([], [])).1.getLast? = some ⟨"user", "hi"⟩ :=
  ⟨by decide, by decide,
   (onUserMessage_error_boundary [⟨"system", "S"⟩] "hi" 50 "ECONNREFUSED"
      ([], []) (by decide) (by decide)).1,
   (onUserMessage_error_boundary [⟨"system", "S"⟩] "hi" 50 "ECONNREFUSED"
      ([], []) (by decide) (by decide)).2.1,
   (onUserMessage_error_boundary [⟨"system", "S"⟩] "hi" 50 "ECONNREFUSED"
      ([], []) (by decide) (by decide)).2.2 (by decide)⟩

/-! ### Claim C5 — EmptyResponseError exactly on unusable content -/

/-- The claim's notion of the usable content of a native-alt success body. -/
def usableOllamaContent (json : OllamaResponse) : Option String :=
  match json.message with
  | none => none
  | some m =>
    match m.content with
    | none => none
    | some c => if c = "" then none else some c

/-- C5: on a success-status response, the adapter raises an empty-response
kind error exactly when the body carries no usable content, on both wire
shapes; in particular a one-choice openai-compatible response with non-empty
content returns that content trimmed, an empty or missing `choices` list
raises the error, and a native-alt response missing `message.content`
raises the error. -/
theorem adapter_empty_response_iff :
    (∀ (t : ℚ) (json : OpenAIResponse),
      (∃ err, callOpenAIEndpoint t (.success json) = .error err ∧
          err.isEmptyResponseError = true)
        ↔ usableOpenAIContent json = none) ∧
    (∀ (t : ℚ) (json : OllamaResponse),
      (∃ err, callOllamaEndpoint t (.success json) = .error err ∧
          err.isEmptyResponseError = true)
        ↔ usableOllamaContent json = none) ∧
    (∀ (t : ℚ) (c : String), c ≠ "" →
      callOpenAIEndpoint t (.success ⟨some [⟨some ⟨some c⟩⟩]⟩)
        = .ok (jsTrim c)) ∧
    (∀ t : ℚ, callOpenAIEndpoint t (.success ⟨some []⟩) = .error .noChoices) ∧
    (∀ t : ℚ, callOpenAIEndpoint t (.success ⟨none⟩) = .error .noChoices) ∧
    (∀ (t : ℚ) (json : OllamaResponse),
      (json.message.bind (fun m => m.content)) = none →
      callOllamaEndpoint t (.success json) = .error .emptyOllama) := by
  refine ⟨?_, ?_, ?_, ?_, ?_, ?_⟩
  · intro t json
    rcases json with ⟨choices⟩
    cases choices with
    | none =>
      simp [callOpenAIEndpoint, usableOpenAIContent, LLMError.isEmptyResponseError]
    | some cs =>
      cases cs with
      | nil =>
        simp [callOpenAIEndpoint, usableOpenAIContent, LLMError.isEmptyResponseError]
      | cons c rest =>
        rcases c with ⟨msg⟩
        cases msg with
        | none =>
          simp [callOpenAIEndpoint, usableOpenAIContent, LLMError.isEmptyResponseError]
        | some wm =>
          rcases wm with ⟨cont⟩
          cases cont with
          | none =>
            simp [callOpenAIEndpoint, usableOpenAIContent, LLMError.isEmptyResponseError]
          | some s =>
            by_cases hs : s = "" <;>
              simp [callOpenAIEndpoint, usableOpenAIContent,
                LLMError.isEmptyResponseError, hs]
  · intro t json
    rcases json with ⟨msg⟩
    cases msg with
    | none =>
      simp [callOllamaEndpoint, usableOllamaContent, LLMError.isEmptyResponseError]
    | some wm =>
      rcases wm with ⟨cont⟩
      cases cont with
      | none =>
        simp [callOllamaEndpoint, usableOllamaContent, LLMError.isEmptyResponseError]
      | some s =>
        by_cases hs : s = "" <;>
          simp [callOllamaEndpoint, usableOllamaContent,
            LLMError.isEmptyResponseError, hs]
  · intro t c hc
    simp [callOpenAIEndpoint, hc]
  · intro t
    rfl
  · intro t
    rfl
  · intro t json hnone
    rcases json with ⟨msg⟩
    cases msg with
    | none => rfl
    | some wm =>
      rcases wm with ⟨cont⟩
      cases cont with
      | none => rfl
      | some s => simp at hnone

/-- C5 (witness): a one-choice response with content `" hi "` returns the
trimmed `"hi"`-equivalent, and a native-alt response whose `message` lacks
`content` raises the empty-response error. -/
theorem adapter_empty_response_iff_witness :
    (" hi " ≠ "") ∧
    callOpenAIEndpoint 7 (.success ⟨some [⟨some ⟨some " hi "⟩⟩]⟩)
      = .ok (jsTrim " hi ") ∧
    ((⟨some ⟨none⟩⟩ : OllamaResponse).message.bind (fun m => m.content)
      = none) ∧
    callOllamaEndpoint 7 (.success ⟨some ⟨none⟩⟩) = .error .emptyOllama :=
  ⟨by decide, adapter_empty_response_iff.2.2.1 7 " hi " (by decide),
   by decide,
   adapter_empty_response_iff.2.2.2.2.2 7
     (⟨some ⟨none⟩⟩ : OllamaResponse) (by decide)⟩

/-! ### Claim C6 — round trip of a single well-formed fence -/

/-- C6: a text containing exactly one well-formed file fence with path
`a/b.txt` and content `hello\nworld` yields exactly one suggestion with that
path and that content, verbatim and untrimmed. -/
theorem extract_single_fence_roundtrip :
    extractAllFileFences "```file path=\"a/b.txt\"\nhello\nworld```"
      = [{ path := "a/b.txt", content := "hello\nworld" }] := by
  decide

/-! ### Claim C7 — path and content edge cases of extraction -/

lemma matchFenceAt_path_ne_nil {l p ct rest : List Char}
    (h : matchFenceAt l = some (p, ct, rest)) : p ≠ [] := by
  unfold matchFenceAt at h
  repeat' split at h
  all_goals simp_all
  obtain ⟨hex, hpeq, -, -⟩ := h
  subst hpeq
  simp_all

lemma scanFencesAux_path_ne_nil (fuel : Nat) :
    ∀ (l : List Char) (pr : List Char × List Char),
      pr ∈ scanFencesAux fuel l → pr.1 ≠ [] := by
  induction fuel with
  | zero =>
    intro l pr h
    simp [scanFencesAux] at h
  | succ f ih =>
    intro l pr h
    cases l with
    | nil => simp [scanFencesAux] at h
    | cons c rest =>
      cases hm : matchFenceAt (c :: rest) with
      | none =>
        simp only [scanFencesAux, hm] at h
        exact ih rest pr h
      | some trip =>
        obtain ⟨p, ct, rem⟩ := trip
        simp only [scanFencesAux, hm] at h
        rcases List.mem_cons.mp h with heq | hmem
        · subst heq
          exact matchFenceAt_path_ne_nil hm
        · exact ih rem pr hmem

/-- C7 (counterexample): the text `` ```file path=" "⏎abc``` `` contains a
fence match whose path is whitespace-only, hence empty after trimming.  The
claim says such a match is skipped and yields no suggestion; the source's
guard only tests the raw capture (`[^"]+` is never empty, and `" "` is
truthy), so the match is accepted and yields a suggestion whose path is the
empty string. -/
theorem extract_fence_ws_path_counterexample :
    extractAllFileFences "```file path=\" \"\nabc```"
      ≠ [] ∧
    extractAllFileFences "```file path=\" \"\nabc```"
      = [{ path := "", content := "abc" }] := by
  decide

/-- C7 (amended): the path capture of a fence match is never literally empty
or missing (the pattern requires at least one non-quote character), so no
match is ever skipped; a whitespace-only path capture is accepted and yields
a suggestion whose path is the empty string after trimming; and a match with
a present-but-empty content block is accepted and yields a suggestion with
empty-string content. -/
theorem extract_fence_edge_cases :
    (∀ (l : List Char) (pr : List Char × List Char),
      pr ∈ scanFences l → pr.1 ≠ []) ∧
    extractAllFileFences "```file path=\" \"\nabc```"
      = [{ path := "", content := "abc" }] ∧
    extractAllFileFences "```file path=\"p\"\n```"
      = [{ path := "p", content := "" }] := by
  refine ⟨?_, by decide, by decide⟩
  intro l pr h
  exact scanFencesAux_path_ne_nil l.length l pr h

/-- C7 (witness): the single match of a small concrete text has the
non-empty path capture `p`. -/
theorem extract_fence_edge_cases_witness :
    (['p'], ['x']) ∈ scanFences ("```file path=\"p\"\nx```".data) ∧
    (['p'] : List Char) ≠ [] :=
  ⟨by decide,
   extract_fence_edge_cases.1 ("```file path=\"p\"\nx```".data)
     (['p'], ['x']) (by decide)⟩

/-! ### Claim C8 — path validation verdicts -/

/-- C8: `validateRelativePath` throws on `"../x"`, on `"/etc/passwd"` and on
every path containing a null byte, and returns without throwing on
`"src/app.ts"`. -/
theorem validateRelativePath_cases :
    exceptOk (validateRelativePath "../x") = false ∧
    exceptOk (validateRelativePath "/etc/passwd") = false ∧
    (∀ s : String, s.data.contains '\x00' = true →
      exceptOk (validateRelativePath s) = false) ∧
    validateRelativePath "src/app.ts" = .ok () := by
  refine ⟨by decide, by decide, ?_, rfl⟩
  intro s h
  simp only [validateRelativePath, h, eq_self_iff_true, if_true,
    apply_ite exceptOk, ite_self]
  repeat' split
  all_goals rfl

/-- C8 (witness): the null-byte clause applied to the concrete path
`"a\x00b"`. -/
theorem validateRelativePath_cases_witness :
    ("a\x00b".data.contains '\x00' = true) ∧
    exceptOk (validateRelativePath "a\x00b") = false :=
  ⟨by decide, validateRelativePath_cases.2.2.1 "a\x00b" (by decide)⟩

/-! ### Claim C9 — the timeout error message -/

/-- C9 (counterexample): with `timeoutMs = 1500` the timeout error carries
`1500 / 1000 = 1.5` seconds, which is not a whole number of seconds
(JavaScript `/` is exact division on these values, and the template string
renders `1.5`). -/
theorem timeout_whole_seconds_counterexample :
    callOpenAIEndpoint 1500 .timeout
      = .error (.timedOutAfterSeconds ((1500 : ℚ) / 1000)) ∧
    ¬ ∃ z : ℤ, ((1500 : ℚ) / 1000) = (z : ℚ) := by
  refine ⟨rfl, ?_⟩
  rintro ⟨z, hz⟩
  have h1 : (1500 : ℚ) = (z : ℚ) * 1000 := by
    rw [div_eq_iff (by norm_num)] at hz
    exact hz
  have h2 : (1500 : ℤ) = z * 1000 := by exact_mod_cast h1
  omega

/-- C9 (amended): on a timer abort both endpoint shapes fail with the
timeout error carrying exactly `timeoutMs / 1000` seconds; this value is a
whole number of seconds precisely under the amendment's hypothesis that
`timeoutMs` is a multiple of 1000 (as the default 120000 is), and the
counterexample shows it is fractional otherwise. -/
theorem timeout_seconds_exact (t : ℕ) :
    callOpenAIEndpoint (t : ℚ) .timeout
      = .error (.timedOutAfterSeconds ((t : ℚ) / 1000)) ∧
    callOllamaEndpoint (t : ℚ) .timeout
      = .error (.timedOutAfterSeconds ((t : ℚ) / 1000)) ∧
    (1000 ∣ t → ∃ z : ℤ, ((t : ℚ) / 1000) = (z : ℚ)) := by
  refine ⟨rfl, rfl, ?_⟩
  rintro ⟨k, rfl⟩
  refine ⟨k, ?_⟩
  push_cast
  rw [mul_comm, mul_div_assoc]
  norm_num

/-- C9 (witness): the default timeout 120000 ms yields the timeout error
stating 120000 / 1000 seconds, a whole number. -/
theorem timeout_seconds_exact_witness :
    (1000 ∣ 120000) ∧
    callOpenAIEndpoint ((120000 : ℕ) : ℚ) .timeout
      = .error (.timedOutAfterSeconds (((120000 : ℕ) : ℚ) / 1000)) ∧
    (∃ z : ℤ, (((120000 : ℕ) : ℚ) / 1000) = (z : ℚ)) :=
  ⟨⟨120, rfl⟩, (timeout_seconds_exact 120000).1,
   (timeout_seconds_exact 120000).2.2 ⟨120, rfl⟩⟩

end LocalLLMChat
